import Mathlib

/-!
Verification development for the fashion-store review-classification engine.

The definitions below are a shallow embedding of the Python sources:

* src/src/models/review_classifier.py  (class ReviewClassifier: text
  preprocessing, feature extraction, ensemble prediction, model loading)
* src/retrain_models.py                (the retraining script, in particular
  its true TF-IDF-weighted embedding extractor)
* src/src/models/train_models.py       (the training pipeline and its
  artifact persistence sequence)

Machine floats are modelled by rationals, numpy vectors by lists of
rationals, Python exceptions by an explicit error type, and the objects
loaded from disk (sklearn models, vectorizers, scalers, the spaCy model)
by records of abstract functions.
-/

namespace FashionStore

/-- Python exceptions that the embedded code can raise. -/
inductive PyErr
  | attributeError
  | typeError
  | valueError
  | zeroDivision
  | keyError
deriving DecidableEq

/-- A dense numpy vector (row of floats), modelled over the rationals. -/
abbrev Vec := List ℚ

/-- Scalar multiplication of a vector, elementwise. -/
def smul (q : ℚ) (v : Vec) : Vec := v.map (fun x => q * x)

/-- Elementwise vector addition (numpy of two same-shape rows). -/
def addVec (u v : Vec) : Vec := List.zipWith (fun a b => a + b) u v

/-- Sum of a list of vectors, as numpy does along axis 0. -/
def sumVecs : List Vec → Vec
  | [] => []
  | [v] => v
  | v :: w :: rest => addVec v (sumVecs (w :: rest))

/-- The semantics of numpy.average(vs, axis=0, weights=ws): the weighted sum
divided by the weight total; numpy raises ZeroDivisionError when the weights
sum to zero. -/
def npAverage (vs : List Vec) (ws : List ℚ) : Except PyErr Vec :=
  if ws.sum = 0 then .error .zeroDivision
  else .ok (smul (1 / ws.sum) (sumVecs (List.zipWith smul ws vs)))

/-! ## Text normalizer

Both preprocess_text implementations (ReviewClassifier.preprocess_text and
train_models.preprocess_text / retrain_models.preprocess_text) perform the
same four steps: null check, str.lower(), re.sub removing every character
outside [a-zA-Z] and whitespace, re.sub collapsing whitespace runs to one
space, and .strip(). -/

/-- The characters matched by Python's regex class backslash-s on str input
(the ASCII whitespace characters plus the Unicode whitespace code points). -/
def pyIsSpace (c : Char) : Bool :=
  c = ' ' || c = '\t' || c = '\n' || c = '\r' || c = '\u000b' || c = '\u000c' ||
  c = '\u001c' || c = '\u001d' || c = '\u001e' || c = '\u001f' || c = '\u0085' ||
  c = '\u00a0' || c = '\u1680' || ('\u2000' ≤ c && c ≤ '\u200a') ||
  c = '\u2028' || c = '\u2029' || c = '\u202f' || c = '\u205f' || c = '\u3000'

/-- One pass of re.sub(r'\s+', ' ', text): every maximal run of whitespace
characters becomes a single space. The boolean flag records whether the scan
is currently inside a whitespace run. -/
def collapseAux : Bool → List Char → List Char
  | _, [] => []
  | inRun, c :: cs =>
    if pyIsSpace c then
      if inRun then collapseAux true cs
      else ' ' :: collapseAux true cs
    else c :: collapseAux false cs

/-- re.sub(r'\s+', ' ', text) on a character list. -/
def collapseWs (l : List Char) : List Char := collapseAux false l

/-- Remove the trailing run of whitespace characters (the right half of
Python's str.strip). -/
def trimRight : List Char → List Char
  | [] => []
  | c :: cs =>
    let r := trimRight cs
    if r.isEmpty then (if pyIsSpace c then [] else [c]) else c :: r

/-- Python str.strip() on a character list: drop leading and trailing
whitespace. -/
def stripList (l : List Char) : List Char := trimRight (l.dropWhile pyIsSpace)

/-- Python str.strip() on strings; used for the title-and-text combination
in ReviewClassifier.predict_single. -/
def pyStrip (s : String) : String := ⟨stripList s.data⟩

/-- Python str.lower() restricted to the basic latin range (sufficient for
every use below). -/
def pyLower (s : String) : String := ⟨s.data.map Char.toLower⟩

/-- ReviewClassifier.preprocess_text (review_classifier.py lines 95-132),
identical in behaviour to preprocess_text in train_models.py lines 36-50 and
retrain_models.py lines 31-45. A missing value (None / NaN) is modelled as
none and yields the empty string; otherwise the text is lowercased,
stripped of every character that is not an ASCII letter or whitespace,
whitespace runs are collapsed to single spaces, and the ends are stripped. -/
def preprocess_text (text : Option String) : String :=
  match text with
  | none => ""
  | some s =>
    if s = "" then ""
    else
      let lowered := s.data.map Char.toLower
      let filtered := lowered.filter (fun c => c.isAlpha || pyIsSpace c)
      ⟨stripList (collapseWs filtered)⟩

/-! ## Shape predicates for normalized text (used to state the §8 properties) -/

/-- Does the list start with a whitespace character? -/
def headIsWs : List Char → Bool
  | [] => false
  | c :: _ => pyIsSpace c

/-- Does the list start with the space character itself? -/
def headIsSpace : List Char → Bool
  | [] => false
  | c :: _ => c = ' '

/-- Does the list end with a whitespace character? -/
def lastIsWs : List Char → Bool
  | [] => false
  | [c] => pyIsSpace c
  | _ :: c :: rest => lastIsWs (c :: rest)

/-- No two adjacent space characters (spaces are single). -/
def noTwoSpaces : List Char → Bool
  | [] => true
  | [_] => true
  | c :: d :: rest => !(c = ' ' && d = ' ') && noTwoSpaces (d :: rest)

/-! ## Loaded artifacts

The objects a ReviewClassifier holds after load_models: sklearn models,
vectorizers, scalers and the spaCy pipeline, each modelled as a record of
abstract (possibly raising) functions. -/

/-- A binary sklearn classifier: predict returns the class (modelled as a
Bool standing for the ints 0/1) and predict_proba-row-1 the probability of
the positive class. Either call may raise. -/
structure Model where
  predict : Vec → Except PyErr Bool
  predict_proba : Vec → Except PyErr ℚ

/-- A fitted CountVectorizer: transform of one document, returned as a dense
row (sparsity is irrelevant to the contract). -/
structure Vectorizer where
  transform : String → Vec

/-- A fitted TfidfVectorizer: vocabulary lookup (vocabulary_.get, none for
out-of-vocabulary terms) and the dense row transform(text).toarray()[0]. -/
structure Tfidf where
  vocab : String → Option ℕ
  row : String → List ℚ

/-- A fitted StandardScaler: transform of one row, which raises on a shape
mismatch. -/
structure Scaler where
  transform : Vec → Except PyErr Vec

/-- A spaCy token as consumed by retrain_models.get_tfidf_weighted_embeddings:
its surface text and the is_stop / is_punct / has_vector / vector members. -/
structure SpacyToken where
  text : String
  is_stop : Bool
  is_punct : Bool
  vector : Option Vec
deriving DecidableEq

/-- The spaCy pipeline: a document vector (some v when doc.has_vector) and
the token sequence of a text. -/
structure Nlp where
  docVector : String → Option Vec
  docTokens : String → List SpacyToken

/-! ## Feature extractors -/

/-- ReviewClassifier.get_spacy_embeddings (review_classifier.py lines
134-169), identical to get_spacy_embeddings in the two training scripts:
each text maps to its document vector, or to the 300-dimensional zero
vector when spaCy has no vector for it. -/
def get_spacy_embeddings (nlp : Nlp) (texts : List String) : List Vec :=
  texts.map (fun text =>
    match nlp.docVector text with
    | some v => v
    | none => List.replicate 300 0)

/-- ReviewClassifier.get_tfidf_weighted_embeddings (review_classifier.py
lines 171-206), identical in behaviour to get_tfidf_weighted_embeddings in
train_models.py lines 77-101: the TF-IDF matrix is computed and discarded,
and the plain document embeddings are returned unchanged. -/
def get_tfidf_weighted_embeddings (tv : Tfidf) (nlp : Nlp) (texts : List String) : List Vec :=
  let _tfidf_matrix := texts.map (fun text => tv.row text)
  get_spacy_embeddings nlp texts

/-- The vectorizable tokens of a text as selected by
retrain_models.get_tfidf_weighted_embeddings lines 77-78: not a stop word,
not punctuation, and carrying a vector. -/
def retrainTokens (nlp : Nlp) (text : String) : List SpacyToken :=
  (nlp.docTokens text).filter (fun t => !t.is_stop && !t.is_punct && t.vector.isSome)

/-- The per-token embedding vectors collected by retrain_models lines 79. -/
def retrainVecs (nlp : Nlp) (text : String) : List Vec :=
  (retrainTokens nlp text).map (fun t => t.vector.getD [])

/-- The per-token TF-IDF weights collected by retrain_models lines 80-85:
the token's TF-IDF row entry when the lowercased token text is in the
vocabulary, 0.0 otherwise. -/
def retrainWeights (nlp : Nlp) (tv : Tfidf) (text : String) : List ℚ :=
  (retrainTokens nlp text).map (fun t =>
    match tv.vocab (pyLower t.text) with
    | some idx => (tv.row text).getD idx 0
    | none => 0)

/-- retrain_models.get_tfidf_weighted_embeddings lines 58-99 for a single
text: when vectorizable tokens exist, the weights are divided by
(sum + 1e-8) and numpy.average is taken with those weights; otherwise the
300-dimensional zero vector is returned. -/
def retrainWeightedEmbedding (nlp : Nlp) (tv : Tfidf) (text : String) : Except PyErr Vec :=
  let word_embeddings := retrainVecs nlp text
  let word_weights := retrainWeights nlp tv text
  if word_embeddings = [] then .ok (List.replicate 300 0)
  else
    let normw := word_weights.map (fun w => w / (word_weights.sum + 1 / 100000000))
    npAverage word_embeddings normw

/-- retrain_models.get_tfidf_weighted_embeddings over a list of texts; the
first raising text aborts the whole call (the Python loop body raises). -/
def get_tfidf_weighted_embeddings_retrain (nlp : Nlp) (tv : Tfidf) (texts : List String) :
    Except PyErr (List Vec) :=
  texts.mapM (retrainWeightedEmbedding nlp tv)

/-- Modelled from the spec, §4.2, weighted-embedding extractor: the weighted
average of the per-token embedding vectors using TF-IDF weights normalized
to sum to one; when all token weights are zero or no vectorizable tokens
exist, the document-level embedding extractor's output. This definition
follows the spec's words and exists to be compared against the source
functions above. -/
def spec_weighted_embedding (nlp : Nlp) (tv : Tfidf) (text : String) : Vec :=
  let vecs := retrainVecs nlp text
  let ws := retrainWeights nlp tv text
  if ws.sum = 0 ∨ vecs = [] then (get_spacy_embeddings nlp [text]).headD []
  else sumVecs (List.zipWith smul (ws.map (fun w => w / ws.sum)) vecs)

/-! ## Fusion policy and prediction results -/

/-- Python's max(set(predictions), key=predictions.count) over the three
binary predictions: scan the distinct values, keeping the first one of
maximal count. -/
def pyMaxCount (p1 p2 p3 : Bool) : Bool :=
  let preds := [p1, p2, p3]
  let uniq := preds.dedup
  uniq.foldl (fun best x => if preds.count best < preds.count x then x else best)
    (uniq.headD p1)

/-- The majority value among three booleans (at least two agree on it). -/
def majority3 (p1 p2 p3 : Bool) : Bool :=
  (p1 && p2) || (p1 && p3) || (p2 && p3)

/-- The label string attached to a binary prediction. -/
def predLabel (p : Bool) : String :=
  if p then "Recommended" else "Not Recommended"

/-- One entry of the individual_results dictionary. -/
structure ModelResult where
  prediction : ℕ
  confidence : ℚ
  label : String
deriving DecidableEq

/-- The detailed_results dictionary returned by predict_single. -/
structure Details where
  individual_results : ModelResult × ModelResult × ModelResult
  consensus : Bool
  ensemble_prediction : ℕ
  ensemble_confidence : ℚ
  ensemble_label : String
deriving DecidableEq

/-- The (prediction, confidence, details) triple predict_single returns;
prediction none and details none model Python's None and {}. -/
structure PredictReturn where
  prediction : Option ℕ
  confidence : ℚ
  details : Option Details
deriving DecidableEq

/-- The failure triple (None, 0.0, {}) returned on every failure path. -/
def sentinel : PredictReturn := ⟨none, 0, none⟩

/-- The fusion block of predict_single (review_classifier.py lines 285-326):
individual results, majority vote via max-set-count, mean probability, and
the consensus flag len(set(predictions)) == 1. -/
def fuse (lr_pred rf_pred svm_pred : Bool) (lr_prob rf_prob svm_prob : ℚ) : Details :=
  let individual : ModelResult × ModelResult × ModelResult :=
    (⟨if lr_pred then 1 else 0, lr_prob, predLabel lr_pred⟩,
     ⟨if rf_pred then 1 else 0, rf_prob, predLabel rf_pred⟩,
     ⟨if svm_pred then 1 else 0, svm_prob, predLabel svm_pred⟩)
  let ensemble_pred := pyMaxCount lr_pred rf_pred svm_pred
  let ensemble_prob := (lr_prob + rf_prob + svm_prob) / 3
  let consensus : Bool := [lr_pred, rf_pred, svm_pred].dedup.length = 1
  ⟨individual, consensus, if ensemble_pred then 1 else 0, ensemble_prob,
   predLabel ensemble_pred⟩

/-! ## The classifier state and the inference service -/

/-- The mutable fields of a ReviewClassifier instance. A field is none when
the corresponding artifact has not been assigned (Python None). -/
structure ReviewClassifier where
  lr_model : Option Model
  rf_model : Option Model
  svm_model : Option Model
  bow_vectorizer : Option Vectorizer
  tfidf_vectorizer : Option Tfidf
  scaler_embeddings : Option Scaler
  scaler_weighted : Option Scaler
  nlp : Option Nlp
  models_loaded : Bool

/-- Reading a field that should hold an artifact: Python raises an
AttributeError when a method is invoked on None. -/
def getAttr {α : Type} : Option α → Except PyErr α
  | some a => .ok a
  | none => .error .attributeError

/-- The body of the try block of predict_single after preprocessing
succeeded (review_classifier.py lines 252-326): feature extraction for the
three models, the six model calls, and the fusion block, any of which may
raise. -/
def predictFromParts (bowO : Option Vectorizer) (tvO : Option Tfidf) (nlpO : Option Nlp)
    (scEO scWO : Option Scaler) (lrO rfO svmO : Option Model)
    (processed : String) : Except PyErr PredictReturn := do
  let bowv ← getAttr bowO
  let bow_features := bowv.transform processed
  let nlpv ← getAttr nlpO
  let embeddings := (get_spacy_embeddings nlpv [processed]).headD []
  let scE ← getAttr scEO
  let embeddings_scaled ← scE.transform embeddings
  let tv ← getAttr tvO
  let weighted := (get_tfidf_weighted_embeddings tv nlpv [processed]).headD []
  let scW ← getAttr scWO
  let weighted_scaled ← scW.transform weighted
  let lrm ← getAttr lrO
  let lr_pred ← lrm.predict bow_features
  let lr_prob ← lrm.predict_proba bow_features
  let rfm ← getAttr rfO
  let rf_pred ← rfm.predict embeddings_scaled
  let rf_prob ← rfm.predict_proba embeddings_scaled
  let svmm ← getAttr svmO
  let svm_pred ← svmm.predict weighted_scaled
  let svm_prob ← svmm.predict_proba weighted_scaled
  let d := fuse lr_pred rf_pred svm_pred lr_prob rf_prob svm_prob
  return ⟨some d.ensemble_prediction, d.ensemble_confidence, some d⟩

/-- The try block of predict_single (review_classifier.py lines 240-326):
combine title and text, strip, preprocess, return the sentinel when the
normalized text is empty, otherwise run extraction, prediction and fusion. -/
def predict_core (s : ReviewClassifier) (review_text title : String) :
    Except PyErr PredictReturn :=
  let combined := pyStrip (title ++ " " ++ review_text)
  let processed := preprocess_text (some combined)
  if processed = "" then .ok sentinel
  else predictFromParts s.bow_vectorizer s.tfidf_vectorizer s.nlp
    s.scaler_embeddings s.scaler_weighted s.lr_model s.rf_model s.svm_model processed

/-- ReviewClassifier.predict_single (review_classifier.py lines 208-330):
the sentinel when models are not loaded, otherwise the try block with every
exception caught and mapped to the sentinel. The rating argument is
accepted and ignored, as in the source. -/
def predict_single (s : ReviewClassifier) (review_text : String)
    (title : String := "") (rating : Option ℕ := none) : PredictReturn :=
  if !s.models_loaded then sentinel
  else
    match predict_core s review_text title with
    | .ok r => r
    | .error _ => sentinel

/-- One entry of the list returned by predict_batch. -/
structure BatchItem where
  text : String
  prediction : Option ℕ
  confidence : ℚ
  details : Option Details
deriving DecidableEq

/-- ReviewClassifier.predict_batch (review_classifier.py lines 332-347):
the empty list when models are not loaded, otherwise one predict_single
call per text, in order. -/
def predict_batch (s : ReviewClassifier) (review_texts : List String) : List BatchItem :=
  if !s.models_loaded then []
  else review_texts.map (fun text =>
    let r := predict_single s text "" none
    ⟨text, r.prediction, r.confidence, r.details⟩)

/-! ## Loading the artifact bundle -/

/-- The artifact bundle on disk: a field is some when the file exists and
deserializes, none when loading it raises. -/
structure Disk where
  lr_model : Option Model
  rf_model : Option Model
  svm_model : Option Model
  bow_vectorizer : Option Vectorizer
  tfidf_vectorizer : Option Tfidf
  scaler_embeddings : Option Scaler
  scaler_weighted : Option Scaler
  spacy_model : Option Nlp

/-- Does every artifact of the bundle load? -/
def completeDisk (d : Disk) : Bool :=
  d.lr_model.isSome && d.rf_model.isSome && d.svm_model.isSome &&
  d.bow_vectorizer.isSome && d.tfidf_vectorizer.isSome &&
  d.scaler_embeddings.isSome && d.scaler_weighted.isSome && d.spacy_model.isSome

/-- ReviewClassifier.load_models (review_classifier.py lines 41-93): the
artifacts are loaded and assigned in source order; the first failing load
raises, the exception is caught, and the method returns False with
models_loaded untouched (fields assigned before the failure keep their new
values). Only a fully successful pass sets models_loaded to True. -/
def load_models (d : Disk) (s : ReviewClassifier) : ReviewClassifier × Bool :=
  match d.lr_model with
  | none => (s, false)
  | some lr =>
  let s := { s with lr_model := some lr }
  match d.rf_model with
  | none => (s, false)
  | some rf =>
  let s := { s with rf_model := some rf }
  match d.svm_model with
  | none => (s, false)
  | some svm =>
  let s := { s with svm_model := some svm }
  match d.bow_vectorizer with
  | none => (s, false)
  | some bow =>
  let s := { s with bow_vectorizer := some bow }
  match d.tfidf_vectorizer with
  | none => (s, false)
  | some tv =>
  let s := { s with tfidf_vectorizer := some tv }
  match d.scaler_embeddings with
  | none => (s, false)
  | some scE =>
  let s := { s with scaler_embeddings := some scE }
  match d.scaler_weighted with
  | none => (s, false)
  | some scW =>
  let s := { s with scaler_weighted := some scW }
  match d.spacy_model with
  | none => (s, false)
  | some nl =>
  let s := { s with nlp := some nl }
  ({ s with models_loaded := true }, true)

/-! ## State-passing rendering of the inference paths (frame property) -/

/-- Read one field of the classifier, threading the state explicitly. -/
def readField {α : Type} (f : ReviewClassifier → α) (s : ReviewClassifier) :
    α × ReviewClassifier := (f s, s)

/-- predict_single rendered in state-passing style: every access to self is
an explicit read; the method body contains no field assignment, so the
state is only threaded through. -/
def predict_single_st (s0 : ReviewClassifier) (review_text : String)
    (title : String) (rating : Option ℕ) : PredictReturn × ReviewClassifier :=
  let (loaded, s1) := readField (fun s => s.models_loaded) s0
  if !loaded then (sentinel, s1)
  else
    let (bowO, s2) := readField (fun s => s.bow_vectorizer) s1
    let (tvO, s3) := readField (fun s => s.tfidf_vectorizer) s2
    let (nlpO, s4) := readField (fun s => s.nlp) s3
    let (scEO, s5) := readField (fun s => s.scaler_embeddings) s4
    let (scWO, s6) := readField (fun s => s.scaler_weighted) s5
    let (lrO, s7) := readField (fun s => s.lr_model) s6
    let (rfO, s8) := readField (fun s => s.rf_model) s7
    let (svmO, s9) := readField (fun s => s.svm_model) s8
    let combined := pyStrip (title ++ " " ++ review_text)
    let processed := preprocess_text (some combined)
    if processed = "" then (sentinel, s9)
    else
      match predictFromParts bowO tvO nlpO scEO scWO lrO rfO svmO processed with
      | .ok r => (r, s9)
      | .error _ => (sentinel, s9)

/-- predict_batch rendered in state-passing style: the loop threads the
state through the per-item predict_single calls. -/
def predict_batch_st (s0 : ReviewClassifier) (review_texts : List String) :
    List BatchItem × ReviewClassifier :=
  let (loaded, s1) := readField (fun s => s.models_loaded) s0
  if !loaded then ([], s1)
  else
    review_texts.foldl
      (fun acc text =>
        let (r, st2) := predict_single_st acc.2 text "" none
        (acc.1 ++ [⟨text, r.prediction, r.confidence, r.details⟩], st2))
      ([], s1)

/-! ## The training pipeline and artifact persistence -/

/-- The stages of train_models (train_models.py lines 103-359). -/
inductive Stage
  | loadData
  | preprocessData
  | splitData
  | fitExtractors
  | fitScalers
  | trainClassifiers
  | evaluateModels
  | persistArtifacts
deriving DecidableEq

/-- The stages that precede artifact persistence, in execution order. -/
def earlyStages : List Stage :=
  [.loadData, .preprocessData, .splitData, .fitExtractors, .fitScalers,
   .trainClassifiers, .evaluateModels]

/-- The files written by the persistence block (train_models.py lines
296-317), in the order of the joblib.dump calls and the final text write. -/
def bundleFiles : List String :=
  ["models/lr_model.pkl", "models/rf_model.pkl", "models/svm_model.pkl",
   "models/bow_vectorizer.pkl", "models/tfidf_vectorizer.pkl",
   "models/scaler_embeddings.pkl", "models/scaler_weighted.pkl",
   "models/spacy_model.txt"]

/-- The persistence block: one file write after another; the i-th write
either succeeds (the file stays on disk) or raises (the block aborts,
keeping every file already written). Returns the files on disk and whether
the block completed. -/
def persistAux (dumpFails : ℕ → Bool) : ℕ → List String → List String × Bool
  | _, [] => ([], true)
  | i, f :: fs =>
    if dumpFails i then ([], false)
    else
      let r := persistAux dumpFails (i + 1) fs
      (f :: r.1, r.2)

/-- train_models as a stage sequence: the first failing early stage aborts
the run before anything is written; otherwise the persistence block runs
write by write. Returns the files on disk and the failing stage, if any
(the except block of train_models.py lines 355-359 reports the failure and
re-raises). -/
def run_pipeline (stageFails : Stage → Bool) (dumpFails : ℕ → Bool) :
    List String × Option Stage :=
  match earlyStages.find? (fun st => stageFails st) with
  | some st => ([], some st)
  | none =>
    let r := persistAux dumpFails 0 bundleFiles
    (r.1, if r.2 then none else some .persistArtifacts)

/-! ## Concrete instances used by witnesses and counterexamples -/

/-- A model that always answers positively with probability 9/10. -/
def demoModel : Model := ⟨fun _ => .ok true, fun _ => .ok (9 / 10)⟩

/-- A model whose calls raise, exercising the exception path. -/
def errModel : Model := ⟨fun _ => .error .valueError, fun _ => .error .valueError⟩

/-- A vectorizer with a fixed transform. -/
def demoVectorizer : Vectorizer := ⟨fun _ => [1, 0]⟩

/-- A scaler that passes rows through. -/
def demoScaler : Scaler := ⟨fun v => .ok v⟩

/-- A spaCy pipeline assigning every document the vector [1, 0]. -/
def demoNlp : Nlp := ⟨fun _ => some [1, 0], fun _ => []⟩

/-- A TF-IDF vectorizer with a one-term vocabulary. -/
def demoTfidf : Tfidf := ⟨fun w => if w = "good" then some 0 else none, fun _ => [1, 0]⟩

/-- A classifier with a complete artifact set and the loaded flag set. -/
def demoState : ReviewClassifier :=
  ⟨some demoModel, some demoModel, some demoModel, some demoVectorizer,
   some demoTfidf, some demoScaler, some demoScaler, some demoNlp, true⟩

/-- A freshly constructed classifier before any successful load. -/
def notLoadedState : ReviewClassifier :=
  ⟨none, none, none, none, none, none, none, none, false⟩

/-- A loaded classifier whose first model raises on every call. -/
def errState : ReviewClassifier := { demoState with lr_model := some errModel }

/-- A bundle on disk missing exactly the random-forest classifier file. -/
def diskMissingRf : Disk :=
  ⟨some demoModel, none, some demoModel, some demoVectorizer, some demoTfidf,
   some demoScaler, some demoScaler, some demoNlp⟩

/-- A complete bundle on disk. -/
def completeDemoDisk : Disk :=
  ⟨some demoModel, some demoModel, some demoModel, some demoVectorizer,
   some demoTfidf, some demoScaler, some demoScaler, some demoNlp⟩

/-- The single vectorizable token of the C1 counterexample: the word good,
carrying the vector [2, 0]. -/
def token_good : SpacyToken := ⟨"good", false, false, some [2, 0]⟩

/-- A spaCy pipeline for the C1 counterexample: the document vector of the
text good is [5, 0], and its token list is the single token above. -/
def nlp0 : Nlp :=
  ⟨fun t => if t = "good" then some [5, 0] else none,
   fun t => if t = "good" then [token_good] else []⟩

/-- A TF-IDF vectorizer for the C1 counterexample: the word good is in the
vocabulary at index 0 with row weight 1. -/
def tv0 : Tfidf := ⟨fun w => if w = "good" then some 0 else none, fun _ => [1]⟩

/-! ## Character-level facts -/

theorem charToNat_inj {a b : Char} (h : a.toNat = b.toNat) : a = b := by
  have h2 := congrArg Char.ofNat h
  simpa using h2

theorem toNat_ofNat_valid (n : ℕ) (h : n < 55296) : (Char.ofNat n).toNat = n := by
  rw [Char.ofNat, dif_pos (Or.inl h)]
  rfl

theorem toLower_toNat (a : Char) :
    (Char.toLower a).toNat =
      if 65 ≤ a.toNat ∧ a.toNat ≤ 90 then a.toNat + 32 else a.toNat := by
  unfold Char.toLower
  simp only []
  split <;> rename_i hc
  · exact toNat_ofNat_valid _ (by omega)
  · rfl

theorem char_le_iff {a b : Char} : a ≤ b ↔ a.toNat ≤ b.toNat := Iff.rfl

theorem isAlpha_toNat (a : Char) :
    a.isAlpha = true ↔ (65 ≤ a.toNat ∧ a.toNat ≤ 90) ∨ (97 ≤ a.toNat ∧ a.toNat ≤ 122) := by
  rw [Char.isAlpha, Char.isUpper, Char.isLower]
  simp only [Bool.or_eq_true, Bool.and_eq_true, decide_eq_true_eq]
  constructor
  · rintro (⟨h1, h2⟩ | ⟨h1, h2⟩)
    · exact Or.inl ⟨h1, h2⟩
    · exact Or.inr ⟨h1, h2⟩
  · rintro (⟨h1, h2⟩ | ⟨h1, h2⟩)
    · exact Or.inl ⟨h1, h2⟩
    · exact Or.inr ⟨h1, h2⟩

theorem toLower_isAlpha_bounds (a : Char) (h : (Char.toLower a).isAlpha = true) :
    97 ≤ (Char.toLower a).toNat ∧ (Char.toLower a).toNat ≤ 122 := by
  rw [isAlpha_toNat] at h
  rw [toLower_toNat] at h ⊢
  by_cases hc : 65 ≤ a.toNat ∧ a.toNat ≤ 90
  · rw [if_pos hc] at h ⊢
    omega
  · rw [if_neg hc] at h ⊢
    omega

theorem toLower_fixed_of_lower {a : Char} (h1 : 97 ≤ a.toNat) (h2 : a.toNat ≤ 122) :
    Char.toLower a = a := by
  apply charToNat_inj
  rw [toLower_toNat, if_neg]
  omega

theorem pyIsSpace_space : pyIsSpace ' ' = true := by decide

theorem lower_not_pyIsSpace {c : Char} (h1 : 97 ≤ c.toNat) (h2 : c.toNat ≤ 122) :
    pyIsSpace c = false := by
  rw [Bool.eq_false_iff]
  intro h
  simp only [pyIsSpace, Bool.or_eq_true, Bool.and_eq_true, decide_eq_true_eq] at h
  repeat' (rcases h with h | h)
  all_goals try exact absurd h1 (by decide)
  all_goals try exact absurd h2 (by decide)
  obtain ⟨ha, hb⟩ := h
  have e1 : (' ' : Char).toNat ≤ c.toNat := char_le_iff.mp ha
  have e2 : (' ' : Char).toNat = 8192 := by decide
  omega

theorem not_space_of_lower {c : Char} (h1 : 97 ≤ c.toNat) (h2 : c.toNat ≤ 122) :
    c ≠ ' ' := by
  intro h
  subst h
  exact absurd h1 (by decide)

theorem isAlpha_of_lower {c : Char} (h1 : 97 ≤ c.toNat) (h2 : c.toNat ≤ 122) :
    c.isAlpha = true := (isAlpha_toNat c).mpr (Or.inr ⟨h1, h2⟩)

/-! ## Normalizer stage lemmas -/

theorem noTwoSpaces_cons (c : Char) (l : List Char) :
    noTwoSpaces (c :: l) = (!(decide (c = ' ') && headIsSpace l) && noTwoSpaces l) := by
  cases l <;> simp [noTwoSpaces, headIsSpace]

theorem headIsWs_of_ok {l : List Char}
    (hAll : ∀ c ∈ l, (97 ≤ c.toNat ∧ c.toNat ≤ 122) ∨ c = ' ')
    (h : headIsSpace l = false) : headIsWs l = false := by
  cases l with
  | nil => rfl
  | cons c cs =>
    rcases hAll c (List.mem_cons_self c cs) with hlow | hsp
    · exact lower_not_pyIsSpace hlow.1 hlow.2
    · rw [headIsSpace] at h
      simp [hsp] at h

theorem mem_collapseAux {c : Char} :
    ∀ (l : List Char) (b : Bool), c ∈ collapseAux b l →
      (c ∈ l ∧ pyIsSpace c = false) ∨ c = ' '
  | [], b, h => by simp [collapseAux] at h
  | d :: ds, b, h => by
    by_cases hd : pyIsSpace d
    · rw [collapseAux, if_pos hd] at h
      cases b with
      | true =>
        rcases mem_collapseAux ds true h with ⟨hm, hws⟩ | hsp
        · exact Or.inl ⟨List.mem_cons_of_mem _ hm, hws⟩
        · exact Or.inr hsp
      | false =>
        rcases List.mem_cons.mp h with hc | h2
        · exact Or.inr hc
        · rcases mem_collapseAux ds true h2 with ⟨hm, hws⟩ | hsp
          · exact Or.inl ⟨List.mem_cons_of_mem _ hm, hws⟩
          · exact Or.inr hsp
    · rw [collapseAux, if_neg hd] at h
      rcases List.mem_cons.mp h with hc | h2
      · subst hc
        exact Or.inl ⟨List.mem_cons_self _ _, by simpa using hd⟩
      · rcases mem_collapseAux ds false h2 with ⟨hm, hws⟩ | hsp
        · exact Or.inl ⟨List.mem_cons_of_mem _ hm, hws⟩
        · exact Or.inr hsp

theorem headIsSpace_of_headIsWs {l : List Char} (h : headIsWs l = false) :
    headIsSpace l = false := by
  cases l with
  | nil => rfl
  | cons c cs =>
    rw [headIsWs] at h
    rw [headIsSpace]
    simp only [decide_eq_false_iff_not]
    intro hc
    subst hc
    rw [pyIsSpace_space] at h
    cases h

theorem collapseAux_props (l : List Char) :
    noTwoSpaces (collapseAux false l) = true ∧
    noTwoSpaces (collapseAux true l) = true ∧
    headIsWs (collapseAux true l) = false := by
  induction l with
  | nil => exact ⟨rfl, rfl, rfl⟩
  | cons d ds ih =>
    obtain ⟨ihf, iht, ihh⟩ := ih
    by_cases hd : pyIsSpace d
    · refine ⟨?_, ?_, ?_⟩
      · rw [collapseAux, if_pos hd, if_neg Bool.false_ne_true]
        rw [noTwoSpaces_cons, iht, headIsSpace_of_headIsWs ihh]
        simp
      · rw [collapseAux, if_pos hd, if_pos rfl]
        exact iht
      · rw [collapseAux, if_pos hd, if_pos rfl]
        exact ihh
    · have hne : decide (d = ' ') = false := by
        simp only [decide_eq_false_iff_not]
        intro hc
        subst hc
        rw [pyIsSpace_space] at hd
        exact hd rfl
      refine ⟨?_, ?_, ?_⟩
      · rw [collapseAux, if_neg hd, noTwoSpaces_cons, ihf, hne]
        simp
      · rw [collapseAux, if_neg hd, noTwoSpaces_cons, ihf, hne]
        simp
      · rw [collapseAux, if_neg hd, headIsWs]
        simpa using hd

theorem headIsWs_dropWhile (l : List Char) : headIsWs (l.dropWhile pyIsSpace) = false := by
  induction l with
  | nil => rfl
  | cons c cs ih =>
    by_cases h : pyIsSpace c
    · rw [List.dropWhile_cons, if_pos h]
      exact ih
    · rw [List.dropWhile_cons, if_neg h, headIsWs]
      simpa using h

theorem noTwoSpaces_tail {c : Char} {l : List Char} (h : noTwoSpaces (c :: l) = true) :
    noTwoSpaces l = true := by
  rw [noTwoSpaces_cons, Bool.and_eq_true] at h
  exact h.2

theorem noTwoSpaces_dropWhile {l : List Char} (h : noTwoSpaces l = true) :
    noTwoSpaces (l.dropWhile pyIsSpace) = true := by
  induction l with
  | nil => exact h
  | cons c cs ih =>
    by_cases hc : pyIsSpace c
    · rw [List.dropWhile_cons, if_pos hc]
      exact ih (noTwoSpaces_tail h)
    · rw [List.dropWhile_cons, if_neg hc]
      exact h

theorem mem_dropWhile {c : Char} {l : List Char} (h : c ∈ l.dropWhile pyIsSpace) :
    c ∈ l := by
  induction l with
  | nil => simpa using h
  | cons d ds ih =>
    by_cases hd : pyIsSpace d
    · rw [List.dropWhile_cons, if_pos hd] at h
      exact List.mem_cons_of_mem _ (ih h)
    · rw [List.dropWhile_cons, if_neg hd] at h
      exact h

theorem trimRight_nil_or_cons (c : Char) (cs : List Char) :
    trimRight (c :: cs) = [] ∨ ∃ t, trimRight (c :: cs) = c :: t := by
  rw [trimRight]
  by_cases hr : (trimRight cs).isEmpty
  · by_cases hc : pyIsSpace c
    · left
      simp [hr, hc]
    · right
      exact ⟨[], by simp [hr, hc]⟩
  · right
    exact ⟨trimRight cs, by simp [hr]⟩

theorem mem_trimRight {c : Char} : ∀ {l : List Char}, c ∈ trimRight l → c ∈ l
  | [], h => by simpa [trimRight] using h
  | d :: ds, h => by
    rw [trimRight] at h
    by_cases hr : (trimRight ds).isEmpty
    · rw [if_pos hr] at h
      by_cases hd : pyIsSpace d
      · rw [if_pos hd] at h
        simp at h
      · rw [if_neg hd] at h
        rcases List.mem_singleton.mp h with hc
        exact hc ▸ List.mem_cons_self _ _
    · rw [if_neg hr] at h
      rcases List.mem_cons.mp h with hc | h2
      · exact hc ▸ List.mem_cons_self _ _
      · exact List.mem_cons_of_mem _ (mem_trimRight h2)

theorem lastIsWs_cons_cons (c d : Char) (l : List Char) :
    lastIsWs (c :: d :: l) = lastIsWs (d :: l) := rfl

theorem lastIsWs_trimRight : ∀ (l : List Char), lastIsWs (trimRight l) = false
  | [] => rfl
  | d :: ds => by
    rw [trimRight]
    by_cases hr : (trimRight ds).isEmpty
    · rw [if_pos hr]
      by_cases hd : pyIsSpace d
      · rw [if_pos hd]
        rfl
      · rw [if_neg hd]
        simpa [lastIsWs] using hd
    · rw [if_neg hr]
      have := lastIsWs_trimRight ds
      cases ht : trimRight ds with
      | nil =>
        rw [ht] at hr
        simp at hr
      | cons e es =>
        rw [ht] at this
        rw [lastIsWs_cons_cons]
        exact this

theorem headIsSpace_trimRight {l : List Char} (h : headIsSpace (trimRight l) = true) :
    headIsSpace l = true := by
  cases l with
  | nil => simpa [trimRight] using h
  | cons c cs =>
    rcases trimRight_nil_or_cons c cs with he | ⟨t, ht⟩
    · rw [he] at h
      cases h
    · rw [ht] at h
      exact h

theorem noTwoSpaces_trimRight : ∀ {l : List Char}, noTwoSpaces l = true →
    noTwoSpaces (trimRight l) = true
  | [], _ => rfl
  | d :: ds, h => by
    rw [trimRight]
    by_cases hr : (trimRight ds).isEmpty
    · rw [if_pos hr]
      by_cases hd : pyIsSpace d
      · rw [if_pos hd]
        rfl
      · rw [if_neg hd]
        rfl
    · rw [if_neg hr]
      rw [noTwoSpaces_cons]
      have ih := noTwoSpaces_trimRight (noTwoSpaces_tail h)
      rw [ih]
      rw [noTwoSpaces_cons, Bool.and_eq_true] at h
      by_cases hds : d = ' '
      · have h2 : headIsSpace ds = false := by
          by_contra hcon
          rw [Bool.not_eq_false] at hcon
          rw [hds, hcon] at h
          simp at h
        have h3 : headIsSpace (trimRight ds) = false := by
          by_contra hcon
          rw [Bool.not_eq_false] at hcon
          rw [headIsSpace_trimRight hcon] at h2
          cases h2
        simp [h3]
      · simp [hds]

theorem headIsWs_trimRight {l : List Char} (h : headIsWs l = false) :
    headIsWs (trimRight l) = false := by
  cases l with
  | nil => rfl
  | cons c cs =>
    rcases trimRight_nil_or_cons c cs with he | ⟨t, ht⟩
    · rw [he]
      rfl
    · rw [ht]
      rw [headIsWs] at h ⊢
      exact h

theorem stages_establish (l0 : List Char) :
    (∀ c ∈ stripList (collapseWs ((l0.map Char.toLower).filter
        (fun c => c.isAlpha || pyIsSpace c))),
      (97 ≤ c.toNat ∧ c.toNat ≤ 122) ∨ c = ' ') ∧
    noTwoSpaces (stripList (collapseWs ((l0.map Char.toLower).filter
        (fun c => c.isAlpha || pyIsSpace c)))) = true ∧
    headIsWs (stripList (collapseWs ((l0.map Char.toLower).filter
        (fun c => c.isAlpha || pyIsSpace c)))) = false ∧
    lastIsWs (stripList (collapseWs ((l0.map Char.toLower).filter
        (fun c => c.isAlpha || pyIsSpace c)))) = false := by
  refine ⟨?_, ?_, ?_, ?_⟩
  · intro c hc
    rw [stripList] at hc
    have hc2 := mem_dropWhile (mem_trimRight hc)
    rw [collapseWs] at hc2
    rcases mem_collapseAux _ false hc2 with ⟨hmem, hws⟩ | hsp
    · left
      have hp := List.of_mem_filter hmem
      rw [Bool.or_eq_true] at hp
      rcases hp with halpha | hws2
      · have hmap := List.mem_of_mem_filter hmem
        obtain ⟨a, _, rfl⟩ := List.mem_map.mp hmap
        exact toLower_isAlpha_bounds a halpha
      · rw [hws2] at hws
        cases hws
    · right
      exact hsp
  · rw [stripList, collapseWs]
    exact noTwoSpaces_trimRight (noTwoSpaces_dropWhile (collapseAux_props _).1)
  · rw [stripList]
    exact headIsWs_trimRight (headIsWs_dropWhile _)
  · rw [stripList]
    exact lastIsWs_trimRight _

theorem preprocess_data_eq (s : String) (hs : ¬ s = "") :
    (preprocess_text (some s)).data =
      stripList (collapseWs ((s.data.map Char.toLower).filter
        (fun c => c.isAlpha || pyIsSpace c))) := by
  show (if s = "" then "" else
    (⟨stripList (collapseWs ((s.data.map Char.toLower).filter
      (fun c => c.isAlpha || pyIsSpace c)))⟩ : String)).data = _
  rw [if_neg hs]

theorem preprocess_establishes (s : String) :
    (∀ c ∈ (preprocess_text (some s)).data, (97 ≤ c.toNat ∧ c.toNat ≤ 122) ∨ c = ' ') ∧
    noTwoSpaces (preprocess_text (some s)).data = true ∧
    headIsWs (preprocess_text (some s)).data = false ∧
    lastIsWs (preprocess_text (some s)).data = false := by
  by_cases hs : s = ""
  · subst hs
    refine ⟨?_, rfl, rfl, rfl⟩
    intro c hc
    simp [preprocess_text] at hc
  · rw [preprocess_data_eq s hs]
    exact stages_establish s.data

/-! ## Normalizer fixpoint lemmas -/

theorem map_toLower_fixed {l : List Char}
    (hAll : ∀ c ∈ l, (97 ≤ c.toNat ∧ c.toNat ≤ 122) ∨ c = ' ') :
    l.map Char.toLower = l := by
  induction l with
  | nil => rfl
  | cons c cs ih =>
    have hc : Char.toLower c = c := by
      rcases hAll c (List.mem_cons_self c cs) with hlow | hsp
      · exact toLower_fixed_of_lower hlow.1 hlow.2
      · rw [hsp]
        decide
    rw [List.map_cons, hc, ih (fun x hx => hAll x (List.mem_cons_of_mem _ hx))]

theorem filter_ok_fixed {l : List Char}
    (hAll : ∀ c ∈ l, (97 ≤ c.toNat ∧ c.toNat ≤ 122) ∨ c = ' ') :
    l.filter (fun c => c.isAlpha || pyIsSpace c) = l := by
  rw [List.filter_eq_self]
  intro c hc
  rcases hAll c hc with hlow | hsp
  · rw [Bool.or_eq_true]
    exact Or.inl (isAlpha_of_lower hlow.1 hlow.2)
  · rw [hsp]
    decide

theorem collapseAux_fixed : ∀ {l : List Char},
    (∀ c ∈ l, (97 ≤ c.toNat ∧ c.toNat ≤ 122) ∨ c = ' ') →
    noTwoSpaces l = true →
    collapseAux false l = l ∧ (headIsWs l = false → collapseAux true l = l)
  | [], _, _ => ⟨rfl, fun _ => rfl⟩
  | c :: cs, hAll, h2 => by
    have hAll2 : ∀ x ∈ cs, (97 ≤ x.toNat ∧ x.toNat ≤ 122) ∨ x = ' ' :=
      fun x hx => hAll x (List.mem_cons_of_mem _ hx)
    have ih := collapseAux_fixed hAll2 (noTwoSpaces_tail h2)
    rcases hAll c (List.mem_cons_self c cs) with hlow | hsp
    · have hns : pyIsSpace c = false := lower_not_pyIsSpace hlow.1 hlow.2
      constructor
      · rw [collapseAux, if_neg (by simp [hns]), ih.1]
      · intro _
        rw [collapseAux, if_neg (by simp [hns]), ih.1]
    · subst hsp
      constructor
      · have hhs : headIsSpace cs = false := by
          rw [noTwoSpaces_cons, Bool.and_eq_true] at h2
          have h1 := h2.1
          rw [Bool.not_eq_true'] at h1
          rcases Bool.and_eq_false_iff.mp h1 with ha | hb
          · rw [decide_eq_false_iff_not] at ha
            exact absurd rfl ha
          · exact hb
        have hh : headIsWs cs = false := headIsWs_of_ok hAll2 hhs
        rw [collapseAux, if_pos pyIsSpace_space, if_neg Bool.false_ne_true, ih.2 hh]
      · intro hcontra
        rw [headIsWs, pyIsSpace_space] at hcontra
        cases hcontra

theorem dropWhile_fixed {l : List Char} (h : headIsWs l = false) :
    l.dropWhile pyIsSpace = l := by
  cases l with
  | nil => rfl
  | cons c cs =>
    rw [headIsWs] at h
    rw [List.dropWhile_cons, if_neg (by simp [h])]

theorem trimRight_fixed : ∀ {l : List Char}, lastIsWs l = false → trimRight l = l
  | [], _ => rfl
  | [c], h => by
    rw [lastIsWs] at h
    rw [trimRight, trimRight]
    simp [h]
  | c :: d :: ds, h => by
    rw [lastIsWs_cons_cons] at h
    have ih := trimRight_fixed h
    rw [trimRight, ih]
    simp

theorem stripList_fixed {l : List Char} (hh : headIsWs l = false)
    (hl : lastIsWs l = false) : stripList l = l := by
  rw [stripList, dropWhile_fixed hh, trimRight_fixed hl]

theorem preprocess_fixed {r : String}
    (hAll : ∀ c ∈ r.data, (97 ≤ c.toNat ∧ c.toNat ≤ 122) ∨ c = ' ')
    (h2 : noTwoSpaces r.data = true)
    (hh : headIsWs r.data = false)
    (hl : lastIsWs r.data = false) :
    preprocess_text (some r) = r := by
  by_cases hre : r = ""
  · subst hre
    rfl
  · show (if r = "" then "" else
      (⟨stripList (collapseWs ((r.data.map Char.toLower).filter
        (fun c => c.isAlpha || pyIsSpace c)))⟩ : String)) = r
    rw [if_neg hre, map_toLower_fixed hAll, filter_ok_fixed hAll]
    rw [collapseWs, (collapseAux_fixed hAll h2).1, stripList_fixed hh hl]

/-! ## Claim C7: the text normalizer -/

/-- C7: for every string s, normalize(normalize(s)) equals normalize(s); the
normalized output contains only lowercase ASCII letters and single interior
spaces (no two adjacent spaces) with no leading or trailing whitespace; and
null/missing input yields the empty string rather than an error. -/
theorem c7_normalizer_idempotent_shape (s : String) :
    preprocess_text (some (preprocess_text (some s))) = preprocess_text (some s) ∧
    (∀ c ∈ (preprocess_text (some s)).data,
      (97 ≤ c.toNat ∧ c.toNat ≤ 122) ∨ c = ' ') ∧
    noTwoSpaces (preprocess_text (some s)).data = true ∧
    headIsWs (preprocess_text (some s)).data = false ∧
    lastIsWs (preprocess_text (some s)).data = false ∧
    preprocess_text none = "" := by
  obtain ⟨hAll, h2, hh, hl⟩ := preprocess_establishes s
  exact ⟨preprocess_fixed hAll h2 hh hl, hAll, h2, hh, hl, rfl⟩

example : preprocess_text (some "  Hello,  WORLD 42 ") = "hello world" := by decide

example : pyStrip " a  b " = "a  b" := by decide

/-! ## Vector algebra lemmas -/

theorem smul_smul_vec (a b : ℚ) (v : Vec) : smul a (smul b v) = smul (a * b) v := by
  unfold smul
  rw [List.map_map]
  congr 1
  funext x
  simp [mul_assoc]

theorem smul_addVec (c : ℚ) (u v : Vec) :
    smul c (addVec u v) = addVec (smul c u) (smul c v) := by
  unfold smul addVec
  rw [List.map_zipWith, List.zipWith_map]
  congr 1
  funext a b
  ring

theorem sumVecs_map_smul (c : ℚ) : ∀ L : List Vec,
    sumVecs (L.map (smul c)) = smul c (sumVecs L)
  | [] => by simp [sumVecs, smul]
  | [v] => by simp [sumVecs]
  | v :: w :: rest => by
    have ih := sumVecs_map_smul c (w :: rest)
    rw [List.map_cons]
    rw [show (w :: rest).map (smul c) = smul c w :: rest.map (smul c) from rfl] at ih ⊢
    rw [sumVecs, ih, sumVecs, smul_addVec]

theorem zipWith_smul_map_mul (c : ℚ) (ws : List ℚ) (vs : List Vec) :
    List.zipWith smul (ws.map (fun w => c * w)) vs =
      (List.zipWith smul ws vs).map (smul c) := by
  rw [List.zipWith_map_left, List.map_zipWith]
  congr 1
  funext a b
  rw [smul_smul_vec]

theorem sum_map_mul_left_id (c : ℚ) (ws : List ℚ) :
    (ws.map (fun w => c * w)).sum = c * ws.sum := by
  have h := List.sum_map_mul_left ws id c
  simpa using h

theorem npAverage_scaled (vs : List Vec) (ws : List ℚ) (c : ℚ) (hc : c ≠ 0)
    (hw : ws.sum ≠ 0) :
    npAverage vs (ws.map (fun w => c * w)) = npAverage vs ws := by
  unfold npAverage
  rw [sum_map_mul_left_id]
  rw [if_neg (mul_ne_zero hc hw), if_neg hw]
  rw [zipWith_smul_map_mul, sumVecs_map_smul, smul_smul_vec]
  congr 2
  field_simp

/-! ## Claim C1: the weighted-embedding extractor -/

/-- C1 counterexample: a text with one vectorizable token whose TF-IDF
weight is 1 (so a non-zero weight exists), on which the inference-path
extractor ReviewClassifier.get_tfidf_weighted_embeddings returns the
document-level embedding [5, 0] instead of the spec's weighted token
average [2, 0]. This refutes the claim as stated for the extractor the
inference service uses. -/
theorem c1_counterexample :
    retrainWeights nlp0 tv0 "good" = [1] ∧
    get_tfidf_weighted_embeddings tv0 nlp0 ["good"] = [[5, 0]] ∧
    spec_weighted_embedding nlp0 tv0 "good" = [2, 0] ∧
    get_tfidf_weighted_embeddings tv0 nlp0 ["good"] ≠
      [spec_weighted_embedding nlp0 tv0 "good"] := by
  have hw : retrainWeights nlp0 tv0 "good" = [1] := by decide
  have hv : retrainVecs nlp0 "good" = [[2, 0]] := by decide
  have hcode : get_tfidf_weighted_embeddings tv0 nlp0 ["good"] = [[5, 0]] := by decide
  have hspec : spec_weighted_embedding nlp0 tv0 "good" = [2, 0] := by
    unfold spec_weighted_embedding
    rw [hw, hv]
    norm_num [sumVecs, smul]
  refine ⟨hw, hcode, hspec, ?_⟩
  rw [hcode, hspec]
  simp

/-- C1 amended: the extractor used by the inference service (and by
train_models.py) ignores the TF-IDF weights entirely and returns the
document-level embeddings for every input; only the retrain_models.py
variant computes a weighted average, and whenever the token weights have
positive sum its output equals the spec's sum-to-one weighted average (its
1e-8-shifted normalization cancels inside numpy.average); its degenerate
fallback, however, is the zero vector rather than the document embedding. -/
theorem c1_weighted_embedding_amended (tv : Tfidf) (nlp : Nlp) (texts : List String)
    (text : String) (h : 0 < (retrainWeights nlp tv text).sum) :
    get_tfidf_weighted_embeddings tv nlp texts = get_spacy_embeddings nlp texts ∧
    retrainWeightedEmbedding nlp tv text = .ok (spec_weighted_embedding nlp tv text) := by
  constructor
  · rfl
  · have hsum : (retrainWeights nlp tv text).sum ≠ 0 := ne_of_gt h
    have hw : retrainWeights nlp tv text ≠ [] := by
      intro he
      rw [he] at hsum
      exact hsum rfl
    have hv : retrainVecs nlp text ≠ [] := by
      intro he
      apply hw
      unfold retrainVecs at he
      unfold retrainWeights
      rw [List.map_eq_nil_iff] at he
      rw [he]
      rfl
    rw [retrainWeightedEmbedding, if_neg hv]
    have hKpos : (0 : ℚ) < (retrainWeights nlp tv text).sum + 1 / 100000000 := by
      have : (0 : ℚ) < 1 / 100000000 := by norm_num
      linarith
    have hc : (1 : ℚ) / ((retrainWeights nlp tv text).sum + 1 / 100000000) ≠ 0 :=
      one_div_ne_zero (ne_of_gt hKpos)
    have hmap : (retrainWeights nlp tv text).map
        (fun w => w / ((retrainWeights nlp tv text).sum + 1 / 100000000)) =
        (retrainWeights nlp tv text).map
        (fun w => (1 / ((retrainWeights nlp tv text).sum + 1 / 100000000)) * w) := by
      congr 1
      funext w
      ring
    rw [hmap, npAverage_scaled _ _ _ hc hsum]
    rw [spec_weighted_embedding]
    rw [if_neg (by push_neg; exact ⟨hsum, hv⟩)]
    rw [npAverage, if_neg hsum]
    congr 1
    have hmap2 : (retrainWeights nlp tv text).map
        (fun w => w / (retrainWeights nlp tv text).sum) =
        (retrainWeights nlp tv text).map
        (fun w => (1 / (retrainWeights nlp tv text).sum) * w) := by
      congr 1
      funext w
      ring
    rw [hmap2, zipWith_smul_map_mul, sumVecs_map_smul]

/-- C1 witness: the amended theorem applied at the concrete instances of the
counterexample, where the token weight sum is 1. -/
theorem c1_witness :
    0 < (retrainWeights nlp0 tv0 "good").sum ∧
    (get_tfidf_weighted_embeddings tv0 nlp0 ["good"] = get_spacy_embeddings nlp0 ["good"] ∧
     retrainWeightedEmbedding nlp0 tv0 "good" = .ok (spec_weighted_embedding nlp0 tv0 "good")) :=
  ⟨by simp [show retrainWeights nlp0 tv0 "good" = [1] from by decide],
   c1_weighted_embedding_amended tv0 nlp0 ["good"] "good"
     (by simp [show retrainWeights nlp0 tv0 "good" = [1] from by decide])⟩

/-! ## Claims C5 and C6: the fusion policy -/

/-- C6: the fused ensemble_prediction is the majority value of the three
binary predictions; the winning value is held by at least two of the three
voters (no ties are possible); and the consensus flag is true exactly when
all three predictions coincide. All of this holds for every probability
triple. -/
theorem c6_majority_consensus (b1 b2 b3 : Bool) (q1 q2 q3 : ℚ) :
    (fuse b1 b2 b3 q1 q2 q3).ensemble_prediction
      = (if majority3 b1 b2 b3 then 1 else 0) ∧
    2 ≤ [b1, b2, b3].count (pyMaxCount b1 b2 b3) ∧
    ((fuse b1 b2 b3 q1 q2 q3).consensus = true ↔ (b1 = b2 ∧ b2 = b3)) := by
  have hpred : (fuse b1 b2 b3 q1 q2 q3).ensemble_prediction
      = (if pyMaxCount b1 b2 b3 then 1 else 0) := rfl
  have hcons : (fuse b1 b2 b3 q1 q2 q3).consensus
      = decide ([b1, b2, b3].dedup.length = 1) := rfl
  refine ⟨?_, ?_, ?_⟩
  · rw [hpred]
    cases b1 <;> cases b2 <;> cases b3 <;> decide
  · cases b1 <;> cases b2 <;> cases b3 <;> decide
  · rw [hcons]
    cases b1 <;> cases b2 <;> cases b3 <;> decide

theorem except_bind_ok {α β : Type} {x : Except PyErr α} {f : α → Except PyErr β}
    {b : β} (h : (x >>= f) = .ok b) : ∃ a, x = .ok a ∧ f a = .ok b := by
  cases x with
  | error e => simp [Bind.bind, Except.bind] at h
  | ok a =>
    refine ⟨a, rfl, ?_⟩
    simpa [Bind.bind, Except.bind] using h

/-- Every successful run of the extraction-and-prediction block produces the
triple built from a fusion of six model outputs. -/
theorem predictFromParts_ok_shape {bowO : Option Vectorizer} {tvO : Option Tfidf}
    {nlpO : Option Nlp} {scEO scWO : Option Scaler} {lrO rfO svmO : Option Model}
    {processed : String} {r : PredictReturn}
    (h : predictFromParts bowO tvO nlpO scEO scWO lrO rfO svmO processed = .ok r) :
    ∃ p1 p2 p3 q1 q2 q3, r =
      ⟨some (fuse p1 p2 p3 q1 q2 q3).ensemble_prediction,
       (fuse p1 p2 p3 q1 q2 q3).ensemble_confidence,
       some (fuse p1 p2 p3 q1 q2 q3)⟩ := by
  rw [predictFromParts] at h
  obtain ⟨bowv, _, h⟩ := except_bind_ok h
  obtain ⟨nlpv, _, h⟩ := except_bind_ok h
  obtain ⟨scE, _, h⟩ := except_bind_ok h
  obtain ⟨emb, _, h⟩ := except_bind_ok h
  obtain ⟨tv, _, h⟩ := except_bind_ok h
  obtain ⟨scW, _, h⟩ := except_bind_ok h
  obtain ⟨wemb, _, h⟩ := except_bind_ok h
  obtain ⟨lrm, _, h⟩ := except_bind_ok h
  obtain ⟨p1, _, h⟩ := except_bind_ok h
  obtain ⟨q1, _, h⟩ := except_bind_ok h
  obtain ⟨rfm, _, h⟩ := except_bind_ok h
  obtain ⟨p2, _, h⟩ := except_bind_ok h
  obtain ⟨q2, _, h⟩ := except_bind_ok h
  obtain ⟨svmm, _, h⟩ := except_bind_ok h
  obtain ⟨p3, _, h⟩ := except_bind_ok h
  obtain ⟨q3, _, h⟩ := except_bind_ok h
  refine ⟨p1, p2, p3, q1, q2, q3, ?_⟩
  have h2 : Except.ok (ε := PyErr)
      (⟨some (fuse p1 p2 p3 q1 q2 q3).ensemble_prediction,
        (fuse p1 p2 p3 q1 q2 q3).ensemble_confidence,
        some (fuse p1 p2 p3 q1 q2 q3)⟩ : PredictReturn) = Except.ok r := h
  exact (Except.ok.inj h2).symm

/-- C5: whenever predict_single's try block succeeds with a details record,
the recorded ensemble_confidence is the arithmetic mean of the three
recorded per-model probabilities, and the fusion's confidence does not
depend on which class wins the vote (replacing the three predictions by any
others leaves it unchanged). -/
theorem c5_ensemble_confidence_mean (s : ReviewClassifier) (text title : String)
    (r : PredictReturn) (d : Details)
    (h : predict_core s text title = Except.ok r) (hd : r.details = some d) :
    d.ensemble_confidence =
      (d.individual_results.1.confidence + d.individual_results.2.1.confidence +
       d.individual_results.2.2.confidence) / 3 ∧
    ∀ p1 p2 p3 : Bool,
      (fuse p1 p2 p3 d.individual_results.1.confidence
        d.individual_results.2.1.confidence
        d.individual_results.2.2.confidence).ensemble_confidence
        = d.ensemble_confidence := by
  rw [predict_core] at h
  by_cases hp : preprocess_text (some (pyStrip (title ++ " " ++ text))) = ""
  · rw [if_pos hp] at h
    have hr : sentinel = r := Except.ok.inj h
    rw [← hr] at hd
    simp [sentinel] at hd
  · rw [if_neg hp] at h
    obtain ⟨p1, p2, p3, q1, q2, q3, rfl⟩ := predictFromParts_ok_shape h
    have hdd : fuse p1 p2 p3 q1 q2 q3 = d := Option.some.inj hd
    rw [← hdd]
    constructor
    · simp [fuse]
    · intro b1 b2 b3
      simp [fuse]

/-- C5 witness: the theorem applied to a concrete loaded classifier on the
text good dress, where all three models report probability 9/10. -/
theorem c5_witness :
    predict_core demoState "good dress" "" = Except.ok
      ⟨some (fuse true true true (9 / 10) (9 / 10) (9 / 10)).ensemble_prediction,
       (fuse true true true (9 / 10) (9 / 10) (9 / 10)).ensemble_confidence,
       some (fuse true true true (9 / 10) (9 / 10) (9 / 10))⟩ ∧
    ((fuse true true true (9 / 10) (9 / 10) (9 / 10)).ensemble_confidence =
      ((fuse true true true (9 / 10) (9 / 10) (9 / 10)).individual_results.1.confidence +
       (fuse true true true (9 / 10) (9 / 10) (9 / 10)).individual_results.2.1.confidence +
       (fuse true true true (9 / 10) (9 / 10) (9 / 10)).individual_results.2.2.confidence) / 3 ∧
     ∀ p1 p2 p3 : Bool,
      (fuse p1 p2 p3 (fuse true true true (9 / 10) (9 / 10) (9 / 10)).individual_results.1.confidence
        (fuse true true true (9 / 10) (9 / 10) (9 / 10)).individual_results.2.1.confidence
        (fuse true true true (9 / 10) (9 / 10) (9 / 10)).individual_results.2.2.confidence).ensemble_confidence
        = (fuse true true true (9 / 10) (9 / 10) (9 / 10)).ensemble_confidence) :=
  ⟨rfl,
   c5_ensemble_confidence_mean demoState "good dress" "" _ _ rfl rfl⟩

/-! ## Claims C2 and C3: failure reporting of the inference service -/

theorem predict_single_not_loaded {s : ReviewClassifier}
    (h : s.models_loaded = false) (review_text title : String) (rating : Option ℕ) :
    predict_single s review_text title rating = sentinel := by
  unfold predict_single
  rw [h]
  rfl

theorem predict_core_empty {s : ReviewClassifier} {review_text title : String}
    (h : preprocess_text (some (pyStrip (title ++ " " ++ review_text))) = "") :
    predict_core s review_text title = .ok sentinel := by
  show (if preprocess_text (some (pyStrip (title ++ " " ++ review_text))) = ""
    then Except.ok sentinel
    else predictFromParts s.bow_vectorizer s.tfidf_vectorizer s.nlp
      s.scaler_embeddings s.scaler_weighted s.lr_model s.rf_model s.svm_model
      (preprocess_text (some (pyStrip (title ++ " " ++ review_text)))))
    = Except.ok sentinel
  rw [if_pos h]

/-- C2 amended: whenever the normalized combination of title and text is the
empty string, predict_single produces no prediction and no default
PredictionResult: it returns the sentinel triple (None, 0.0, {}). The
empty-input condition, however, is signalled only through this sentinel,
which is shared with every other failure, not through a distinct
EmptyInputError. -/
theorem c2_empty_input_amended (s : ReviewClassifier) (review_text title : String)
    (rating : Option ℕ)
    (h : preprocess_text (some (pyStrip (title ++ " " ++ review_text))) = "") :
    predict_single s review_text title rating = sentinel ∧
    (predict_single s review_text title rating).prediction = none ∧
    (predict_single s review_text title rating).details = none := by
  have hs : predict_single s review_text title rating = sentinel := by
    unfold predict_single
    rw [predict_core_empty h]
    split
    · rfl
    · rfl
  exact ⟨hs, by rw [hs]; rfl, by rw [hs]; rfl⟩

/-- C2 witness: the amended theorem applied to a loaded classifier with
empty text and empty title. -/
theorem c2_witness :
    preprocess_text (some (pyStrip ("" ++ " " ++ ""))) = "" ∧
    (predict_single demoState "" "" none = sentinel ∧
     (predict_single demoState "" "" none).prediction = none ∧
     (predict_single demoState "" "" none).details = none) :=
  ⟨by decide, c2_empty_input_amended demoState "" "" none (by decide)⟩

/-- C2 counterexample: with models loaded, empty text and empty title yield
exactly the same triple (None, 0.0, {}) that a never-loaded classifier
returns for a non-empty review. The caller receives the shared failure
sentinel, indistinguishable from a models-not-loaded failure, so no
EmptyInputError is reported, refuting the claim as stated. -/
theorem c2_counterexample :
    predict_single demoState "" "" none = sentinel ∧
    predict_single notLoadedState "nice dress" "" none = sentinel ∧
    predict_single demoState "" "" none =
      predict_single notLoadedState "nice dress" "" none := ⟨rfl, rfl, rfl⟩

theorem load_models_complete {d : Disk} (h : completeDisk d = true)
    (s : ReviewClassifier) :
    (load_models d s).1.models_loaded = true ∧ (load_models d s).2 = true := by
  obtain ⟨dlr, drf, dsvm, dbow, dtv, dse, dsw, dsp⟩ := d
  simp only [completeDisk, Bool.and_eq_true, Option.isSome_iff_exists] at h
  obtain ⟨⟨⟨⟨⟨⟨⟨⟨x1, h1⟩, x2, h2⟩, x3, h3⟩, x4, h4⟩, x5, h5⟩, x6, h6⟩, x7, h7⟩, x8, h8⟩ := h
  subst h1 h2 h3 h4 h5 h6 h7 h8
  exact ⟨rfl, rfl⟩

/-- C3 amended: a bundle missing one classifier file makes load_models
return False with the loaded flag still down (the service is not ready and
the caller is not crashed), and every subsequent predict_single call
returns the sentinel triple (None, 0.0, {}) rather than raising a
ModelsNotLoadedError, until a load from a complete bundle succeeds and sets
the flag. -/
theorem c3_load_failure_amended (d : Disk) (s : ReviewClassifier)
    (hs : s.models_loaded = false)
    (hmiss : d.lr_model = none ∨ d.rf_model = none ∨ d.svm_model = none) :
    (load_models d s).2 = false ∧
    (load_models d s).1.models_loaded = false ∧
    (∀ review_text title rating,
      predict_single (load_models d s).1 review_text title rating = sentinel) ∧
    (∀ d2 s2, completeDisk d2 = true →
      (load_models d2 s2).1.models_loaded = true ∧ (load_models d2 s2).2 = true) := by
  obtain ⟨dlr, drf, dsvm, dbow, dtv, dse, dsw, dsp⟩ := d
  have hfail : (load_models ⟨dlr, drf, dsvm, dbow, dtv, dse, dsw, dsp⟩ s).2 = false ∧
      (load_models ⟨dlr, drf, dsvm, dbow, dtv, dse, dsw, dsp⟩ s).1.models_loaded = false := by
    cases dlr with
    | none => exact ⟨rfl, hs⟩
    | some lr =>
      cases drf with
      | none => exact ⟨rfl, hs⟩
      | some rf =>
        cases dsvm with
        | none => exact ⟨rfl, hs⟩
        | some svm =>
          rcases hmiss with h | h | h
          · exact absurd h (by simp)
          · exact absurd h (by simp)
          · exact absurd h (by simp)
  refine ⟨hfail.1, hfail.2, ?_, ?_⟩
  · intro review_text title rating
    exact predict_single_not_loaded hfail.2 review_text title rating
  · intro d2 s2 h2
    exact load_models_complete h2 s2

/-- C3 witness: the amended theorem applied to a fresh classifier and a
bundle missing the random-forest file; the complete demo bundle then loads
successfully. -/
theorem c3_witness :
    notLoadedState.models_loaded = false ∧
    diskMissingRf.rf_model = none ∧
    ((load_models diskMissingRf notLoadedState).2 = false ∧
     (load_models diskMissingRf notLoadedState).1.models_loaded = false ∧
     (∀ review_text title rating,
       predict_single (load_models diskMissingRf notLoadedState).1
         review_text title rating = sentinel) ∧
     (∀ d2 s2, completeDisk d2 = true →
       (load_models d2 s2).1.models_loaded = true ∧ (load_models d2 s2).2 = true)) :=
  ⟨rfl, rfl,
   c3_load_failure_amended diskMissingRf notLoadedState rfl (Or.inr (Or.inl rfl))⟩

/-- C3 counterexample: after the failed load the next predict_single call
does not raise: it returns the ordinary sentinel value (None, 0.0, {}),
identical to the value a loaded classifier returns for empty input, so no
distinct ModelsNotLoadedError reaches the caller, refuting the claim as
stated. -/
theorem c3_counterexample :
    (load_models diskMissingRf notLoadedState).2 = false ∧
    predict_single (load_models diskMissingRf notLoadedState).1
      "love it perfect" "" none = sentinel ∧
    predict_single (load_models diskMissingRf notLoadedState).1
      "love it perfect" "" none = predict_single demoState "" "" none :=
  ⟨rfl, rfl, rfl⟩

/-! ## Claim C9: inference mutates no artifact state -/

theorem predict_single_st_eq (st : ReviewClassifier) (review_text title : String)
    (rating : Option ℕ) :
    predict_single_st st review_text title rating
      = (predict_single st review_text title rating, st) := by
  unfold predict_single_st predict_single predict_core readField
  cases h : st.models_loaded with
  | false => simp [h]
  | true =>
    simp only [h, Bool.not_true, Bool.false_eq_true, if_false]
    by_cases hp : preprocess_text (some (pyStrip (title ++ " " ++ review_text))) = ""
    · rw [if_pos hp, if_pos hp]
    · rw [if_neg hp, if_neg hp]
      cases predictFromParts st.bow_vectorizer st.tfidf_vectorizer st.nlp
        st.scaler_embeddings st.scaler_weighted st.lr_model st.rf_model st.svm_model
        (preprocess_text (some (pyStrip (title ++ " " ++ review_text)))) with
      | ok r => rfl
      | error e => rfl

theorem predict_batch_foldl (st : ReviewClassifier) :
    ∀ (texts : List String) (acc : List BatchItem),
      texts.foldl
        (fun acc text =>
          let (r, st2) := predict_single_st acc.2 text "" none
          (acc.1 ++ [⟨text, r.prediction, r.confidence, r.details⟩], st2))
        (acc, st)
      = (acc ++ texts.map (fun text =>
          let r := predict_single st text "" none
          ⟨text, r.prediction, r.confidence, r.details⟩), st)
  | [], acc => by simp
  | t :: ts, acc => by
    rw [List.foldl_cons]
    have hstep : (match predict_single_st (acc, st).2 t "" none with
        | (r, st2) => ((acc, st).1 ++
            [(⟨t, r.prediction, r.confidence, r.details⟩ : BatchItem)], st2))
        = (acc ++ [(⟨t, (predict_single st t "" none).prediction,
            (predict_single st t "" none).confidence,
            (predict_single st t "" none).details⟩ : BatchItem)], st) := by
      rw [show predict_single_st (acc, st).2 t "" none
          = (predict_single st t "" none, st) from predict_single_st_eq st t "" none]
    rw [hstep, predict_batch_foldl st ts]
    simp

/-- C9: in the state-passing rendering of the inference paths, both
predict_single and predict_batch return the classifier state they were
given, unchanged in every field, together with exactly the value the direct
definitions produce: no inference path mutates loaded artifact state. -/
theorem c9_inference_frame (s : ReviewClassifier) (review_text title : String)
    (rating : Option ℕ) (review_texts : List String) :
    predict_single_st s review_text title rating
      = (predict_single s review_text title rating, s) ∧
    predict_batch_st s review_texts = (predict_batch s review_texts, s) := by
  refine ⟨predict_single_st_eq s review_text title rating, ?_⟩
  unfold predict_batch_st predict_batch readField
  cases h : s.models_loaded with
  | false => simp [h]
  | true =>
    simp only [h, Bool.not_true, Bool.false_eq_true, if_false]
    rw [predict_batch_foldl s review_texts []]
    simp

/-! ## Claim C8: batch prediction versus single prediction -/

theorem predict_batch_loaded {s : ReviewClassifier} (h : s.models_loaded = true)
    (texts : List String) :
    predict_batch s texts = texts.map (fun text =>
      ⟨text, (predict_single s text "" none).prediction,
       (predict_single s text "" none).confidence,
       (predict_single s text "" none).details⟩) := by
  unfold predict_batch
  rw [h]
  rfl

/-- C8 amended: when models are loaded, predict_batch returns one item per
input text, in input order, and the i-th item carries the text together
with precisely the prediction, confidence and details of an independent
predict_single call on that text. (When models are not loaded the source
instead returns the empty list; see the counterexample.) -/
theorem c8_batch_amended (s : ReviewClassifier) (texts : List String) (i : ℕ)
    (h : s.models_loaded = true) (hi : i < texts.length)
    (hib : i < (predict_batch s texts).length) :
    (predict_batch s texts).length = texts.length ∧
    (predict_batch s texts).get ⟨i, hib⟩ =
      ⟨texts.get ⟨i, hi⟩,
       (predict_single s (texts.get ⟨i, hi⟩) "" none).prediction,
       (predict_single s (texts.get ⟨i, hi⟩) "" none).confidence,
       (predict_single s (texts.get ⟨i, hi⟩) "" none).details⟩ := by
  have hb := predict_batch_loaded h texts
  constructor
  · rw [hb, List.length_map]
  · simp only [List.get_eq_getElem]
    simp only [hb, List.getElem_map]

/-- C8 witness: the amended theorem applied to the loaded demo classifier on
a one-element batch. -/
theorem c8_witness :
    demoState.models_loaded = true ∧
    (predict_batch demoState ["good dress"]).length = (["good dress"] : List String).length :=
  ⟨rfl, (c8_batch_amended demoState ["good dress"] 0 rfl (by decide) (by decide)).1⟩

/-- C8 counterexample: on a classifier whose models are not loaded,
predict_batch returns the empty list, so its output does not have the
length of the input and its items cannot equal the corresponding
predict_single results (which are sentinel triples), refuting the claim as
universally stated. -/
theorem c8_counterexample :
    predict_batch notLoadedState ["good dress"] = [] ∧
    (predict_batch notLoadedState ["good dress"]).length ≠
      (["good dress"] : List String).length ∧
    predict_single notLoadedState "good dress" "" none = sentinel :=
  ⟨rfl, by decide, rfl⟩

/-! ## Claim C10: predict_single is total and sentinel-valued on failure -/

/-- C10: predict_single never propagates an exception: it always returns a
triple. When models are not loaded it returns the sentinel (None, 0.0, {});
when the try block raises any internal exception it returns the same
sentinel; when the try block succeeds it returns that result; and in every
case the outcome is either the sentinel or a successful try-block result. -/
theorem c10_total_sentinel (s : ReviewClassifier) (review_text title : String)
    (rating : Option ℕ) :
    (s.models_loaded = false → predict_single s review_text title rating = sentinel) ∧
    (∀ e, predict_core s review_text title = Except.error e →
      predict_single s review_text title rating = sentinel) ∧
    (∀ r, predict_core s review_text title = Except.ok r →
      s.models_loaded = true → predict_single s review_text title rating = r) ∧
    (predict_single s review_text title rating = sentinel ∨
      ∃ r, predict_core s review_text title = Except.ok r ∧
        predict_single s review_text title rating = r) := by
  refine ⟨?_, ?_, ?_, ?_⟩
  · intro h
    exact predict_single_not_loaded h review_text title rating
  · intro e he
    unfold predict_single
    rw [he]
    split
    · rfl
    · rfl
  · intro r hr hl
    unfold predict_single
    rw [hr, hl]
    rfl
  · cases hl : s.models_loaded with
    | false => exact Or.inl (predict_single_not_loaded hl review_text title rating)
    | true =>
      cases hc : predict_core s review_text title with
      | error e =>
        left
        unfold predict_single
        rw [hc]
        split
        · rfl
        · rfl
      | ok r =>
        right
        refine ⟨r, rfl, ?_⟩
        unfold predict_single
        rw [hc, hl]
        rfl

/-- C10 witness: a loaded classifier whose first model raises on every
call; the try block fails with a ValueError and predict_single returns the
sentinel. -/
theorem c10_witness :
    predict_core errState "good dress" "" = Except.error PyErr.valueError ∧
    predict_single errState "good dress" "" none = sentinel :=
  ⟨rfl, (c10_total_sentinel errState "good dress" "" none).2.1 PyErr.valueError rfl⟩

/-! ## Claim C4: pipeline abort and artifact persistence -/

theorem persistAux_take (dumpFails : ℕ → Bool) :
    ∀ (files : List String) (i : ℕ),
      (∃ k, (persistAux dumpFails i files).1 = files.take k) ∧
      ((persistAux dumpFails i files).2 = true →
        (persistAux dumpFails i files).1 = files)
  | [], _ => ⟨⟨0, rfl⟩, fun _ => rfl⟩
  | f :: fs, i => by
    obtain ⟨⟨k, hk⟩, hcomp⟩ := persistAux_take dumpFails fs (i + 1)
    by_cases hf : dumpFails i
    · refine ⟨⟨0, ?_⟩, ?_⟩
      · rw [persistAux, if_pos hf]
        rfl
      · intro h
        rw [persistAux, if_pos hf] at h
        cases h
    · refine ⟨⟨k + 1, ?_⟩, ?_⟩
      · rw [persistAux, if_neg hf]
        show f :: (persistAux dumpFails (i + 1) fs).1 = f :: fs.take k
        rw [hk]
      · intro h
        rw [persistAux, if_neg hf] at h ⊢
        show f :: (persistAux dumpFails (i + 1) fs).1 = f :: fs
        have h2 : (persistAux dumpFails (i + 1) fs).2 = true := h
        rw [hcomp h2]

/-- C4 amended: a failing early stage aborts the run with that stage
reported and no file persisted, and a run that reports no failure writes
the complete bundle; but persistence itself is a sequence of per-file
writes, so what is on disk after any run is some prefix of the bundle file
list, and a failure during the persist stage can leave a proper, non-empty
prefix (a partial artifact) behind. -/
theorem run_pipeline_early {stageFails : Stage → Bool} {dumpFails : ℕ → Bool}
    {st : Stage} (h : earlyStages.find? (fun x => stageFails x) = some st) :
    run_pipeline stageFails dumpFails = ([], some st) := by
  unfold run_pipeline
  rw [h]

theorem run_pipeline_persist {stageFails : Stage → Bool} {dumpFails : ℕ → Bool}
    (h : earlyStages.find? (fun x => stageFails x) = none) :
    run_pipeline stageFails dumpFails =
      ((persistAux dumpFails 0 bundleFiles).1,
       if (persistAux dumpFails 0 bundleFiles).2 then none
       else some Stage.persistArtifacts) := by
  unfold run_pipeline
  rw [h]

theorem c4_pipeline_amended (stageFails : Stage → Bool) (dumpFails : ℕ → Bool) :
    (∃ k, (run_pipeline stageFails dumpFails).1 = bundleFiles.take k) ∧
    ((run_pipeline stageFails dumpFails).2 = none →
      (run_pipeline stageFails dumpFails).1 = bundleFiles) ∧
    (∀ st, earlyStages.find? (fun x => stageFails x) = some st →
      (run_pipeline stageFails dumpFails).1 = [] ∧
      (run_pipeline stageFails dumpFails).2 = some st) := by
  cases hf : earlyStages.find? (fun x => stageFails x) with
  | some st =>
    rw [run_pipeline_early hf]
    refine ⟨⟨0, rfl⟩, ?_, ?_⟩
    · intro h
      simp at h
    · intro st2 h2
      obtain rfl := Option.some.inj h2
      exact ⟨rfl, rfl⟩
  | none =>
    rw [run_pipeline_persist hf]
    obtain ⟨⟨k, hk⟩, hcomp⟩ := persistAux_take dumpFails bundleFiles 0
    refine ⟨⟨k, hk⟩, ?_, ?_⟩
    · intro h
      by_cases hr : (persistAux dumpFails 0 bundleFiles).2 = true
      · exact hcomp hr
      · rw [Bool.not_eq_true] at hr
        rw [show ((persistAux dumpFails 0 bundleFiles).1,
            if (persistAux dumpFails 0 bundleFiles).2 then none
            else some Stage.persistArtifacts).2
          = (if (persistAux dumpFails 0 bundleFiles).2 then none
            else some Stage.persistArtifacts) from rfl, hr] at h
        simp at h
    · intro st h2
      cases h2

/-- C4 witness: with no failures anywhere, the pipeline reports no failing
stage and the complete bundle is on disk. -/
theorem c4_witness :
    (run_pipeline (fun _ => false) (fun _ => false)).2 = none ∧
    (run_pipeline (fun _ => false) (fun _ => false)).1 = bundleFiles :=
  ⟨by decide, (c4_pipeline_amended (fun _ => false) (fun _ => false)).2.1 (by decide)⟩

/-- C4 counterexample: if every training stage succeeds but the second
joblib.dump call raises, the pipeline aborts in the persist stage leaving
exactly the first model file on disk: neither nothing nor a complete
bundle, refuting the atomic-persistence claim. -/
theorem c4_counterexample :
    (run_pipeline (fun _ => false) (fun i => i == 1)).1 = ["models/lr_model.pkl"] ∧
    (run_pipeline (fun _ => false) (fun i => i == 1)).1 ≠ [] ∧
    (run_pipeline (fun _ => false) (fun i => i == 1)).1 ≠ bundleFiles ∧
    (run_pipeline (fun _ => false) (fun i => i == 1)).2 = some Stage.persistArtifacts := by
  refine ⟨by decide, by decide, by decide, by decide⟩

end FashionStore
